import Mathlib

/-!
Verification of the rs-otp library (HOTP per RFC4226, TOTP per RFC6238).

The embedding translates `src/hotp.rs` and `src/totp.rs` into Lean.  The
crate modules `util.rs` (providing `hash_generic`, `get_code`, `MacDigest`)
and `otp_result.rs` (providing `OTPResult`) are not part of the provided
sources; they are modelled from the specification (RFC4226 section 5.3 HMAC,
dynamic truncation and decimal reduction), with executable SHA-1, SHA-256 and
SHA-512 so concrete test vectors can be checked by evaluation.

Machine-integer conventions: bytes are `Nat` values below 256, 32-bit and
64-bit words are `Nat` reduced modulo `2 ^ 32` / `2 ^ 64`.  Rust panics
(division by zero, failed slice conversion) are modelled as `Option.none`;
`u64` subtraction follows release-mode wrapping semantics, made explicit as
arithmetic modulo `2 ^ 64`.
-/

namespace RsOtp

/-- `2 ^ 32` as a literal, the modulus of 32-bit words. -/
def mod32 : Nat := 4294967296

/-- `2 ^ 64` as a literal, the modulus of 64-bit words. -/
def mod64 : Nat := 18446744073709551616

/-- Truncate to a 32-bit word. -/
def w32 (x : Nat) : Nat := x % mod32

/-- Truncate to a 64-bit word. -/
def w64 (x : Nat) : Nat := x % mod64

/-- Rotate a 32-bit word left by `s` (for `0 < s < 32`, `x < 2 ^ 32`). -/
def rotl32 (x s : Nat) : Nat := w32 (x <<< s) ||| (x >>> (32 - s))

/-- Rotate a 32-bit word right by `s` (for `0 < s < 32`, `x < 2 ^ 32`). -/
def rotr32 (x s : Nat) : Nat := (x >>> s) ||| w32 (x <<< (32 - s))

/-- Rotate a 64-bit word right by `s` (for `0 < s < 64`, `x < 2 ^ 64`). -/
def rotr64 (x s : Nat) : Nat := (x >>> s) ||| w64 (x <<< (64 - s))

/-- The `n` low-order bytes of `x`, most significant first (big-endian),
mirroring Rust's `to_be_bytes`. -/
def beBytes : Nat → Nat → List Nat
  | 0, _ => []
  | n + 1, x => beBytes n (x >>> 8) ++ [x % 256]

/-- Big-endian value of a byte list, mirroring `from_be_bytes`. -/
def beWord (bs : List Nat) : Nat := bs.foldl (fun a b => a * 256 + b) 0

/-- Split a list into chunks of `n` elements (structural recursion on a fuel
argument: `fuel` bounds the number of chunks produced). -/
def chunksGo (n : Nat) : Nat → List Nat → List (List Nat)
  | 0, _ => []
  | _, [] => []
  | fuel + 1, l => l.take n :: chunksGo n fuel (l.drop n)

/-- Split a list into chunks of `n` elements. -/
def chunks (n : Nat) (l : List Nat) : List (List Nat) := chunksGo n l.length l

/-- Interpret a byte list as big-endian 32-bit words. -/
def toWords32 (l : List Nat) : List Nat := (chunks 4 l).map beWord

/-- Interpret a byte list as big-endian 64-bit words. -/
def toWords64 (l : List Nat) : List Nat := (chunks 8 l).map beWord

/-- Merkle–Damgard padding: append `0x80`, zero bytes, and the bit length in
a big-endian `lenBytes`-byte field, reaching a multiple of `blockLen`. -/
def padMsg (blockLen lenBytes : Nat) (msg : List Nat) : List Nat :=
  let zeros := (blockLen - (msg.length + 1 + lenBytes) % blockLen) % blockLen
  msg ++ [0x80] ++ List.replicate zeros 0 ++ beBytes lenBytes (msg.length * 8)

/-- Working state of the SHA-1 compression function: five 32-bit words. -/
structure Sha1State where
  a : Nat
  b : Nat
  c : Nat
  d : Nat
  e : Nat

/-- SHA-1 initial state (FIPS 180-4). -/
def sha1Init : Sha1State :=
  ⟨0x67452301, 0xEFCDAB89, 0x98BADCFE, 0x10325476, 0xC3D2E1F0⟩

/-- Extend a 16-word SHA-1 message schedule by `k` words. -/
def sha1Extend (w : List Nat) : Nat → List Nat
  | 0 => w
  | k + 1 =>
    let p := sha1Extend w k
    let n := p.length
    p ++ [rotl32 ((p.getD (n - 3) 0) ^^^ (p.getD (n - 8) 0) ^^^
                  (p.getD (n - 14) 0) ^^^ (p.getD (n - 16) 0)) 1]

/-- One SHA-1 round: round index `i` (0–79) and schedule word `wi`. -/
def sha1Round (st : Sha1State) (i wi : Nat) : Sha1State :=
  let f :=
    if i < 20 then (st.b &&& st.c) ||| ((st.b ^^^ 0xFFFFFFFF) &&& st.d)
    else if i < 40 then st.b ^^^ st.c ^^^ st.d
    else if i < 60 then (st.b &&& st.c) ||| (st.b &&& st.d) ||| (st.c &&& st.d)
    else st.b ^^^ st.c ^^^ st.d
  let k :=
    if i < 20 then 0x5A827999
    else if i < 40 then 0x6ED9EBA1
    else if i < 60 then 0x8F1BBCDC
    else 0xCA62C1D6
  ⟨w32 (rotl32 st.a 5 + f + st.e + k + wi), st.a, rotl32 st.b 30, st.c, st.d⟩

/-- SHA-1 compression of one 64-byte chunk into the running state. -/
def sha1Compress (h : Sha1State) (chunk : List Nat) : Sha1State :=
  let ws := sha1Extend (toWords32 chunk) 64
  let st := ws.enum.foldl (fun st p => sha1Round st p.1 p.2) h
  ⟨w32 (h.a + st.a), w32 (h.b + st.b), w32 (h.c + st.c),
   w32 (h.d + st.d), w32 (h.e + st.e)⟩

/-- Serialize the SHA-1 state as the 20-byte digest. -/
def Sha1State.out (h : Sha1State) : List Nat :=
  beBytes 4 h.a ++ beBytes 4 h.b ++ beBytes 4 h.c ++ beBytes 4 h.d ++ beBytes 4 h.e

/-- SHA-1 of a byte list (FIPS 180-4). -/
def sha1 (msg : List Nat) : List Nat :=
  ((chunks 64 (padMsg 64 8 msg)).foldl sha1Compress sha1Init).out

/-- Working state of the SHA-256 / SHA-512 compression functions: eight
words (32-bit for SHA-256, 64-bit for SHA-512). -/
structure Sha2State where
  a : Nat
  b : Nat
  c : Nat
  d : Nat
  e : Nat
  f : Nat
  g : Nat
  h : Nat

/-- SHA-256 initial state (FIPS 180-4). -/
def sha256Init : Sha2State :=
  ⟨1779033703, 3144134277, 1013904242, 2773480762, 1359893119, 2600822924,
   528734635, 1541459225⟩

/-- SHA-256 round constants (FIPS 180-4). -/
def k256 : List Nat :=
  [ 1116352408, 1899447441, 3049323471, 3921009573, 961987163, 1508970993,
    2453635748, 2870763221, 3624381080, 310598401, 607225278, 1426881987,
    1925078388, 2162078206, 2614888103, 3248222580, 3835390401, 4022224774,
    264347078, 604807628, 770255983, 1249150122, 1555081692, 1996064986,
    2554220882, 2821834349, 2952996808, 3210313671, 3336571891, 3584528711,
    113926993, 338241895, 666307205, 773529912, 1294757372, 1396182291,
    1695183700, 1986661051, 2177026350, 2456956037, 2730485921, 2820302411,
    3259730800, 3345764771, 3516065817, 3600352804, 4094571909, 275423344,
    430227734, 506948616, 659060556, 883997877, 958139571, 1322822218,
    1537002063, 1747873779, 1955562222, 2024104815, 2227730452, 2361852424,
    2428436474, 2756734187, 3204031479, 3329325298]

/-- Extend a 16-word SHA-256 message schedule by `k` words. -/
def sha256Extend (w : List Nat) : Nat → List Nat
  | 0 => w
  | k + 1 =>
    let p := sha256Extend w k
    let n := p.length
    let w15 := p.getD (n - 15) 0
    let w2 := p.getD (n - 2) 0
    let s0 := rotr32 w15 7 ^^^ rotr32 w15 18 ^^^ (w15 >>> 3)
    let s1 := rotr32 w2 17 ^^^ rotr32 w2 19 ^^^ (w2 >>> 10)
    p ++ [w32 (p.getD (n - 16) 0 + s0 + p.getD (n - 7) 0 + s1)]

/-- One SHA-256 round with round constant `k` and schedule word `wi`. -/
def sha256Round (st : Sha2State) (k wi : Nat) : Sha2State :=
  let S1 := rotr32 st.e 6 ^^^ rotr32 st.e 11 ^^^ rotr32 st.e 25
  let ch := (st.e &&& st.f) ^^^ ((st.e ^^^ 0xFFFFFFFF) &&& st.g)
  let t1 := w32 (st.h + S1 + ch + k + wi)
  let S0 := rotr32 st.a 2 ^^^ rotr32 st.a 13 ^^^ rotr32 st.a 22
  let maj := (st.a &&& st.b) ^^^ (st.a &&& st.c) ^^^ (st.b &&& st.c)
  let t2 := w32 (S0 + maj)
  ⟨w32 (t1 + t2), st.a, st.b, st.c, w32 (st.d + t1), st.e, st.f, st.g⟩

/-- SHA-256 compression of one 64-byte chunk into the running state. -/
def sha256Compress (h : Sha2State) (chunk : List Nat) : Sha2State :=
  let ws := sha256Extend (toWords32 chunk) 48
  let st := (k256.zip ws).foldl (fun st p => sha256Round st p.1 p.2) h
  ⟨w32 (h.a + st.a), w32 (h.b + st.b), w32 (h.c + st.c), w32 (h.d + st.d),
   w32 (h.e + st.e), w32 (h.f + st.f), w32 (h.g + st.g), w32 (h.h + st.h)⟩

/-- Serialize the SHA-256 state as the 32-byte digest. -/
def Sha2State.out32 (h : Sha2State) : List Nat :=
  beBytes 4 h.a ++ beBytes 4 h.b ++ beBytes 4 h.c ++ beBytes 4 h.d ++
  beBytes 4 h.e ++ beBytes 4 h.f ++ beBytes 4 h.g ++ beBytes 4 h.h

/-- SHA-256 of a byte list (FIPS 180-4). -/
def sha256 (msg : List Nat) : List Nat :=
  ((chunks 64 (padMsg 64 8 msg)).foldl sha256Compress sha256Init).out32

/-- SHA-512 initial state (FIPS 180-4). -/
def sha512Init : Sha2State :=
  ⟨7640891576956012808, 13503953896175478587, 4354685564936845355,
   11912009170470909681, 5840696475078001361, 11170449401992604703,
   2270897969802886507, 6620516959819538809⟩

/-- SHA-512 round constants (FIPS 180-4). -/
def k512 : List Nat :=
  [ 4794697086780616226, 8158064640168781261, 13096744586834688815,
    16840607885511220156, 4131703408338449720, 6480981068601479193,
    10538285296894168987, 12329834152419229976, 15566598209576043074,
    1334009975649890238, 2608012711638119052, 6128411473006802146,
    8268148722764581231, 9286055187155687089, 11230858885718282805,
    13951009754708518548, 16472876342353939154, 17275323862435702243,
    1135362057144423861, 2597628984639134821, 3308224258029322869,
    5365058923640841347, 6679025012923562964, 8573033837759648693,
    10970295158949994411, 12119686244451234320, 12683024718118986047,
    13788192230050041572, 14330467153632333762, 15395433587784984357,
    489312712824947311, 1452737877330783856, 2861767655752347644,
    3322285676063803686, 5560940570517711597, 5996557281743188959,
    7280758554555802590, 8532644243296465576, 9350256976987008742,
    10552545826968843579, 11727347734174303076, 12113106623233404929,
    14000437183269869457, 14369950271660146224, 15101387698204529176,
    15463397548674623760, 17586052441742319658, 1182934255886127544,
    1847814050463011016, 2177327727835720531, 2830643537854262169,
    3796741975233480872, 4115178125766777443, 5681478168544905931,
    6601373596472566643, 7507060721942968483, 8399075790359081724,
    8693463985226723168, 9568029438360202098, 10144078919501101548,
    10430055236837252648, 11840083180663258601, 13761210420658862357,
    14299343276471374635, 14566680578165727644, 15097957966210449927,
    16922976911328602910, 17689382322260857208, 500013540394364858,
    748580250866718886, 1242879168328830382, 1977374033974150939,
    2944078676154940804, 3659926193048069267, 4368137639120453308,
    4836135668995329356, 5532061633213252278, 6448918945643986474,
    6902733635092675308, 7801388544844847127]

/-- Extend a 16-word SHA-512 message schedule by `k` words. -/
def sha512Extend (w : List Nat) : Nat → List Nat
  | 0 => w
  | k + 1 =>
    let p := sha512Extend w k
    let n := p.length
    let w15 := p.getD (n - 15) 0
    let w2 := p.getD (n - 2) 0
    let s0 := rotr64 w15 1 ^^^ rotr64 w15 8 ^^^ (w15 >>> 7)
    let s1 := rotr64 w2 19 ^^^ rotr64 w2 61 ^^^ (w2 >>> 6)
    p ++ [w64 (p.getD (n - 16) 0 + s0 + p.getD (n - 7) 0 + s1)]

/-- One SHA-512 round with round constant `k` and schedule word `wi`. -/
def sha512Round (st : Sha2State) (k wi : Nat) : Sha2State :=
  let S1 := rotr64 st.e 14 ^^^ rotr64 st.e 18 ^^^ rotr64 st.e 41
  let ch := (st.e &&& st.f) ^^^ ((st.e ^^^ 0xFFFFFFFFFFFFFFFF) &&& st.g)
  let t1 := w64 (st.h + S1 + ch + k + wi)
  let S0 := rotr64 st.a 28 ^^^ rotr64 st.a 34 ^^^ rotr64 st.a 39
  let maj := (st.a &&& st.b) ^^^ (st.a &&& st.c) ^^^ (st.b &&& st.c)
  let t2 := w64 (S0 + maj)
  ⟨w64 (t1 + t2), st.a, st.b, st.c, w64 (st.d + t1), st.e, st.f, st.g⟩

/-- SHA-512 compression of one 128-byte chunk into the running state. -/
def sha512Compress (h : Sha2State) (chunk : List Nat) : Sha2State :=
  let ws := sha512Extend (toWords64 chunk) 64
  let st := (k512.zip ws).foldl (fun st p => sha512Round st p.1 p.2) h
  ⟨w64 (h.a + st.a), w64 (h.b + st.b), w64 (h.c + st.c), w64 (h.d + st.d),
   w64 (h.e + st.e), w64 (h.f + st.f), w64 (h.g + st.g), w64 (h.h + st.h)⟩

/-- Serialize the SHA-512 state as the 64-byte digest. -/
def Sha2State.out64 (h : Sha2State) : List Nat :=
  beBytes 8 h.a ++ beBytes 8 h.b ++ beBytes 8 h.c ++ beBytes 8 h.d ++
  beBytes 8 h.e ++ beBytes 8 h.f ++ beBytes 8 h.g ++ beBytes 8 h.h

/-- SHA-512 of a byte list (FIPS 180-4). -/
def sha512 (msg : List Nat) : List Nat :=
  ((chunks 128 (padMsg 128 16 msg)).foldl sha512Compress sha512Init).out64

/-- HMAC (RFC2104) over a hash with the given block size in bytes. -/
def hmac (hash : List Nat → List Nat) (blockSize : Nat)
    (key msg : List Nat) : List Nat :=
  let k0 := if blockSize < key.length then hash key else key
  let kpad := k0 ++ List.replicate (blockSize - k0.length) 0
  let ipad := kpad.map (fun b => b ^^^ 0x36)
  let opad := kpad.map (fun b => b ^^^ 0x5C)
  hash (opad ++ hash (ipad ++ msg))

/-- Modelled from the spec: the `MacDigest` enumeration of `util.rs` (absent
from the provided sources), the closed set of HMAC variants SHA1 / SHA256 /
SHA512 named by the specification. -/
inductive MacDigest where
  | SHA1
  | SHA256
  | SHA512
deriving DecidableEq

/-- Modelled from the spec: `hash_generic(msg, secret, digest)` of `util.rs`
(absent from the provided sources): `HMAC(algorithm, key = secret,
message = msg)`, with digest lengths 20 / 32 / 64 bytes for SHA1 / SHA256 /
SHA512 and the standard HMAC block sizes (64 bytes for SHA1 and SHA256,
128 bytes for SHA512). -/
def hash_generic (msg : List Nat) (secret : List Nat)
    (digest : MacDigest) : List Nat :=
  match digest with
  | .SHA1 => hmac sha1 64 secret msg
  | .SHA256 => hmac sha256 64 secret msg
  | .SHA512 => hmac sha512 128 secret msg

/-- Modelled from the spec: `get_code(bytes, digits)` of `util.rs` (absent
from the provided sources): interpret the four extracted bytes as a
big-endian unsigned 32-bit integer, mask off the top bit
(`value & 0x7FFFFFFF`), and reduce modulo `10 ^ digits`. -/
def get_code (bytes : List Nat) (digits : Nat) : Nat :=
  (beWord bytes &&& 0x7FFFFFFF) % 10 ^ digits

/-- Modelled from the spec: the `OTPResult` value of `otp_result.rs` (absent
from the provided sources): an immutable pair of the digit count and the
numeric code. -/
structure OTPResult where
  digits : Nat
  code : Nat
deriving DecidableEq

/-- Modelled from the spec: the `OTPResult` constructor. -/
def OTPResult.new (digits code : Nat) : OTPResult := ⟨digits, code⟩

/-- The HOTP generator (`src/hotp.rs`): secret bytes and digit count. -/
structure HOTP where
  secret : List Nat
  digits : Nat
deriving DecidableEq

/-- `HOTP::new` (`src/hotp.rs`): stores a copy of the secret bytes and the
digit count. -/
def HOTP.new (secret : List Nat) (digits : Nat) : HOTP :=
  ⟨secret, digits⟩

/-- UTF-8 bytes of a string, as `str::as_bytes` exposes them. -/
def utf8Bytes (s : String) : List Nat :=
  s.toUTF8.toList.map (fun b => b.toNat)

/-- `HOTP::new_from_utf8` (`src/hotp.rs`): `HOTP::new` on the UTF-8 bytes. -/
def HOTP.new_from_utf8 (secret : String) (digits : Nat) : HOTP :=
  HOTP.new (utf8Bytes secret) digits

/-- `HOTP::get_digits` (`src/hotp.rs`). -/
def HOTP.get_digits (h : HOTP) : Nat := h.digits

/-- `HOTP::get_otp` (`src/hotp.rs`): HMAC-SHA1 the 8-byte big-endian counter
with the secret, take the offset from the low nibble of the last hash byte,
slice 4 bytes there (the failed `try_into` panic is modelled as `none`), and
reduce via `get_code`. -/
def HOTP.get_otp (h : HOTP) (counter : Nat) : Option OTPResult :=
  let hash := hash_generic (beBytes 8 counter) h.secret MacDigest.SHA1
  let offset := hash.getD (hash.length - 1) 0 &&& 0xf
  let bytes := (hash.drop offset).take 4
  if bytes.length = 4 then
    some (OTPResult.new h.digits (get_code bytes h.digits))
  else none

/-- The TOTP generator (`src/totp.rs`): secret bytes, HMAC digest choice,
digit count and period in seconds. -/
structure TOTP where
  secret : List Nat
  mac_digest : MacDigest
  digits : Nat
  period : Nat
deriving DecidableEq

/-- `TOTP::new` (`src/totp.rs`): stores a copy of the secret bytes and the
digest, digit count and period. -/
def TOTP.new (secret : List Nat) (mac_digest : MacDigest)
    (digits period : Nat) : TOTP :=
  ⟨secret, mac_digest, digits, period⟩

/-- `TOTP::new_from_utf8` (`src/totp.rs`): `TOTP::new` on the UTF-8 bytes. -/
def TOTP.new_from_utf8 (secret : String) (mac_digest : MacDigest)
    (digits period : Nat) : TOTP :=
  TOTP.new (utf8Bytes secret) mac_digest digits period

/-- `TOTP::get_digest` (`src/totp.rs`). -/
def TOTP.get_digest (t : TOTP) : MacDigest := t.mac_digest

/-- `TOTP::get_digits` (`src/totp.rs`). -/
def TOTP.get_digits (t : TOTP) : Nat := t.digits

/-- `TOTP::get_period` (`src/totp.rs`). -/
def TOTP.get_period (t : TOTP) : Nat := t.period

/-- Rust `u64` subtraction `a - b` under release-mode overflow semantics:
wrapping arithmetic modulo `2 ^ 64`. -/
def sub64 (a b : Nat) : Nat := (a % mod64 + mod64 - b % mod64) % mod64

/-- `TOTP::time_until_refresh_with_start` (`src/totp.rs` lines 176-179):
`time_until = (time - time_start) % period`, returning `period` when that
remainder is `0` and the remainder itself otherwise.  The `%` by a zero
period is a Rust panic, modelled as `none`. -/
def TOTP.time_until_refresh_with_start (t : TOTP)
    (time time_start : Nat) : Option Nat :=
  if t.period = 0 then none
  else
    let time_until := sub64 time time_start % t.period
    some (if time_until = 0 then t.period else time_until)

/-- `TOTP::time_until_refresh` (`src/totp.rs`): start time `0`. -/
def TOTP.time_until_refresh (t : TOTP) (time : Nat) : Option Nat :=
  t.time_until_refresh_with_start time 0

/-- `TOTP::get_otp_with_custom_time_start` (`src/totp.rs` lines 206-218):
`time_count = (time - time_start) / period` (the division by a zero period
is a Rust panic, modelled as `none`), then the same HMAC / offset / slice /
`get_code` pipeline as `HOTP::get_otp`, with the configured digest. -/
def TOTP.get_otp_with_custom_time_start (t : TOTP)
    (time time_start : Nat) : Option OTPResult :=
  if t.period = 0 then none
  else
    let time_count := sub64 time time_start / t.period
    let hash := hash_generic (beBytes 8 time_count) t.secret t.mac_digest
    let offset := hash.getD (hash.length - 1) 0 &&& 0xf
    let bytes := (hash.drop offset).take 4
    if bytes.length = 4 then
      some (OTPResult.new t.digits (get_code bytes t.digits))
    else none

/-- `TOTP::get_otp` (`src/totp.rs`): start time `0`. -/
def TOTP.get_otp (t : TOTP) (time : Nat) : Option OTPResult :=
  t.get_otp_with_custom_time_start time 0

/-- The RFC4226 section 5.3 derivation pipeline, stated from the
specification text: encode the counter as 8 big-endian bytes, HMAC with the
secret, take `offset` as the low nibble of the final hash byte, read 4 bytes
at `offset` as a big-endian 32-bit integer (in bounds for every valid offset
and digest), mask to 31 bits, reduce modulo `10 ^ digits`, and return
`CodeResult(digits, code)`. -/
def rfc4226Derive (secret : List Nat) (counter digits : Nat)
    (algorithm : MacDigest) : Option OTPResult :=
  let hash := hash_generic (beBytes 8 counter) secret algorithm
  let offset := hash.getD (hash.length - 1) 0 &&& 0x0F
  if offset + 4 ≤ hash.length then
    let value := beWord ((hash.drop offset).take 4)
    let truncated := value &&& 0x7FFFFFFF
    some (OTPResult.new digits (truncated % 10 ^ digits))
  else none

/-! ### Helper lemmas -/

theorem beBytes_length (n x : Nat) : (beBytes n x).length = n := by
  induction n generalizing x with
  | zero => rfl
  | succ n ih => simp [beBytes, ih]

theorem sha1_length (msg : List Nat) : (sha1 msg).length = 20 := by
  simp [sha1, Sha1State.out, beBytes_length]

theorem sha256_length (msg : List Nat) : (sha256 msg).length = 32 := by
  simp [sha256, Sha2State.out32, beBytes_length]

theorem sha512_length (msg : List Nat) : (sha512 msg).length = 64 := by
  simp [sha512, Sha2State.out64, beBytes_length]

/-- The HMAC digest is 20, 32 or 64 bytes long, per the chosen algorithm. -/
theorem hash_generic_length (msg secret : List Nat) (d : MacDigest) :
    (hash_generic msg secret d).length = 20 ∨
    (hash_generic msg secret d).length = 32 ∨
    (hash_generic msg secret d).length = 64 := by
  cases d <;>
    simp [hash_generic, hmac, sha1_length, sha256_length, sha512_length]

theorem hash_generic_length_ge (msg secret : List Nat) (d : MacDigest) :
    20 ≤ (hash_generic msg secret d).length := by
  rcases hash_generic_length msg secret d with h | h | h <;> omega

theorem offset_add_four_le (l : List Nat) (h20 : 20 ≤ l.length) :
    (l.getD (l.length - 1) 0 &&& 0xf) + 4 ≤ l.length := by
  have h : l.getD (l.length - 1) 0 &&& 0xf ≤ 0xf := Nat.and_le_right
  omega

theorem slice4_length (l : List Nat) (o : Nat) (h : o + 4 ≤ l.length) :
    ((l.drop o).take 4).length = 4 := by
  simp [List.length_take, List.length_drop]
  omega

/-- `HOTP::get_otp` is the RFC4226 derivation pipeline at algorithm SHA1. -/
theorem hotp_get_otp_eq_derive (h : HOTP) (c : Nat) :
    h.get_otp c = rfc4226Derive h.secret c h.digits MacDigest.SHA1 := by
  have hlen := hash_generic_length_ge (beBytes 8 c) h.secret MacDigest.SHA1
  have hoff :=
    offset_add_four_le (hash_generic (beBytes 8 c) h.secret MacDigest.SHA1) hlen
  have hsl :=
    slice4_length (hash_generic (beBytes 8 c) h.secret MacDigest.SHA1) _ hoff
  simp only [HOTP.get_otp, rfc4226Derive, get_code]
  rw [if_pos hsl, if_pos hoff]

/-- `TOTP::get_otp_with_custom_time_start` with a nonzero period is the
RFC4226 derivation pipeline at the wrapped time-step counter. -/
theorem totp_get_otp_eq_derive (t : TOTP) (time ts : Nat)
    (hp : t.period ≠ 0) :
    t.get_otp_with_custom_time_start time ts
      = rfc4226Derive t.secret (sub64 time ts / t.period)
          t.digits t.mac_digest := by
  have hlen := hash_generic_length_ge
    (beBytes 8 (sub64 time ts / t.period)) t.secret t.mac_digest
  have hoff := offset_add_four_le
    (hash_generic (beBytes 8 (sub64 time ts / t.period)) t.secret t.mac_digest)
    hlen
  have hsl := slice4_length
    (hash_generic (beBytes 8 (sub64 time ts / t.period)) t.secret t.mac_digest)
    _ hoff
  simp only [TOTP.get_otp_with_custom_time_start, rfc4226Derive, get_code]
  rw [if_neg hp, if_pos hsl, if_pos hoff]

/-- The RFC4226 derivation pipeline never takes the out-of-bounds branch. -/
theorem derive_isSome (secret : List Nat) (counter digits : Nat)
    (alg : MacDigest) :
    (rfc4226Derive secret counter digits alg).isSome = true := by
  simp only [rfc4226Derive]
  rw [if_pos (offset_add_four_le _ (hash_generic_length_ge _ _ _))]
  rfl

/-- `u64` wrapping subtraction agrees with plain subtraction on the
non-underflowing `u64` domain. -/
theorem sub64_eq (a b : Nat) (hba : b ≤ a) (ha : a < mod64) :
    sub64 a b = a - b := by
  unfold sub64
  rw [Nat.mod_eq_of_lt ha, Nat.mod_eq_of_lt (lt_of_le_of_lt hba ha)]
  have h : a + mod64 - b = a - b + mod64 := by omega
  rw [h, Nat.add_mod_right, Nat.mod_eq_of_lt (by omega)]

/-! ### Claim theorems -/

/-- C1: at period 30, start 0 and time 10 the claim demands
`period - ((time - time_start) mod period) = 20` seconds until refresh, but
`TOTP::time_until_refresh_with_start` returns the elapsed part of the
period, `(time - time_start) mod period = 10`: the code computes the
remainder itself, not its complement, contradicting both the claim and the
method's own documentation. -/
theorem claim_C1_refresh_returns_elapsed :
    (TOTP.new [] MacDigest.SHA1 6 30).time_until_refresh_with_start 10 0
      = some 10 ∧
    (TOTP.new [] MacDigest.SHA1 6 30).time_until_refresh_with_start 10 0
      ≠ some (30 - (10 - 0) % 30) := by
  constructor
  · rfl
  · decide

set_option maxRecDepth 40000 in
/-- C2 counterexample: with `time = 0 < 1 = time_start` and period 30,
`TOTP::get_otp_with_custom_time_start` does not surface any failure: the
`u64` subtraction wraps and an ordinary garbage code for the wrapped
counter `(2 ^ 64 - 1) / 30` is returned. -/
theorem claim_C2_no_named_failure :
    (TOTP.new [1] MacDigest.SHA1 6 30).get_otp_with_custom_time_start 0 1
      = some (OTPResult.new 6 563076) := by
  decide

/-- C2 amended: a zero period is an arithmetic fault (division by zero, a
panic modelled as `none`) in both `get_otp_with_custom_time_start` and
`time_until_refresh_with_start`; but `time < time_start` with a nonzero
period is not surfaced at all: the subtraction wraps modulo `2 ^ 64` and an
ordinary code for the wrapped counter is produced. -/
theorem claim_C2_zero_period_panics_underflow_wraps :
    (∀ (t : TOTP) (time ts : Nat), t.period = 0 →
        t.get_otp_with_custom_time_start time ts = none ∧
        t.time_until_refresh_with_start time ts = none) ∧
    (∀ (t : TOTP) (time ts : Nat), t.period ≠ 0 →
        t.get_otp_with_custom_time_start time ts
          = rfc4226Derive t.secret (sub64 time ts / t.period)
              t.digits t.mac_digest ∧
        (t.get_otp_with_custom_time_start time ts).isSome = true) := by
  constructor
  · intro t time ts hp
    constructor
    · simp [TOTP.get_otp_with_custom_time_start, hp]
    · simp [TOTP.time_until_refresh_with_start, hp]
  · intro t time ts hp
    refine ⟨totp_get_otp_eq_derive t time ts hp, ?_⟩
    rw [totp_get_otp_eq_derive t time ts hp]
    exact derive_isSome _ _ _ _

/-- C2 witness: the amended statement at a concrete generator, with a
wrapped (`time < time_start`) call producing a code. -/
theorem claim_C2_witness :
    ((TOTP.new [1] MacDigest.SHA1 6 30).get_otp_with_custom_time_start
      0 1).isSome = true :=
  (claim_C2_zero_period_panics_underflow_wraps.2
    (TOTP.new [1] MacDigest.SHA1 6 30) 0 1 (by decide)).2

/-- C3: both generators implement exactly the RFC4226 dynamic-truncation
pipeline (8-byte big-endian counter, HMAC, low-nibble offset, big-endian
4-byte read, 31-bit mask, reduction modulo `10 ^ digits`): `HOTP::get_otp`
at algorithm SHA1, and `TOTP::get_otp_with_custom_time_start` (for a
nonzero period) at the configured algorithm and the time-step counter. -/
theorem claim_C3_rfc4226_pipeline :
    (∀ (h : HOTP) (c : Nat),
        h.get_otp c = rfc4226Derive h.secret c h.digits MacDigest.SHA1) ∧
    (∀ (t : TOTP) (time ts : Nat), t.period ≠ 0 →
        t.get_otp_with_custom_time_start time ts
          = rfc4226Derive t.secret (sub64 time ts / t.period)
              t.digits t.mac_digest) :=
  ⟨hotp_get_otp_eq_derive, totp_get_otp_eq_derive⟩

/-- C3 witness: the pipeline equations at a concrete generator and time. -/
theorem claim_C3_witness :
    (TOTP.new [1] MacDigest.SHA256 8 30).get_otp_with_custom_time_start 59 0
      = rfc4226Derive [1] (sub64 59 0 / 30) 8 MacDigest.SHA256 :=
  claim_C3_rfc4226_pipeline.2 (TOTP.new [1] MacDigest.SHA256 8 30) 59 0
    (by decide)

set_option maxRecDepth 40000 in
/-- C4: the RFC4226 Appendix D test vectors: with the ASCII bytes of the
secret `12345678901234567890` (codes 49–57, 48, twice over) and 6 digits,
counter 0 yields code 755224 and counter 1 yields code 287082. -/
theorem claim_C4_rfc4226_vectors :
    (HOTP.new [49, 50, 51, 52, 53, 54, 55, 56, 57, 48,
               49, 50, 51, 52, 53, 54, 55, 56, 57, 48] 6).get_otp 0
      = some (OTPResult.new 6 755224) ∧
    (HOTP.new [49, 50, 51, 52, 53, 54, 55, 56, 57, 48,
               49, 50, 51, 52, 53, 54, 55, 56, 57, 48] 6).get_otp 1
      = some (OTPResult.new 6 287082) := by
  constructor
  · decide
  · decide

/-- C5: for a nonzero period and `time_start ≤ time < 2 ^ 64`,
`TOTP::get_otp_with_custom_time_start` is the shared derivation at the
floor-divided counter `(time - time_start) / period` with the configured
algorithm and digits; with SHA1 it coincides with `HOTP::get_otp` on the
same secret and digits, and `HOTP::get_otp` is itself always the SHA1
derivation. -/
theorem claim_C5_totp_refines_hotp (secret : List Nat) (alg : MacDigest)
    (digits period time ts : Nat)
    (hp : 0 < period) (hts : ts ≤ time) (ht : time < mod64) :
    (TOTP.new secret alg digits period).get_otp_with_custom_time_start
        time ts
      = rfc4226Derive secret ((time - ts) / period) digits alg ∧
    (TOTP.new secret MacDigest.SHA1 digits period
        ).get_otp_with_custom_time_start time ts
      = (HOTP.new secret digits).get_otp ((time - ts) / period) ∧
    (HOTP.new secret digits).get_otp ((time - ts) / period)
      = rfc4226Derive secret ((time - ts) / period) digits MacDigest.SHA1 := by
  have hsub : sub64 time ts = time - ts := sub64_eq time ts hts ht
  have h1 := totp_get_otp_eq_derive (TOTP.new secret alg digits period)
    time ts (by simpa [TOTP.new] using Nat.pos_iff_ne_zero.mp hp)
  have h2 := totp_get_otp_eq_derive
    (TOTP.new secret MacDigest.SHA1 digits period) time ts
    (by simpa [TOTP.new] using Nat.pos_iff_ne_zero.mp hp)
  have h3 := hotp_get_otp_eq_derive (HOTP.new secret digits)
    ((time - ts) / period)
  rw [hsub] at h1 h2
  simp only [TOTP.new, HOTP.new] at h1 h2 h3
  exact ⟨h1, by simp only [TOTP.new, HOTP.new]; rw [h2, h3], h3⟩

/-- C5 witness: the refinement at the RFC6238 instant `time = 59`,
`period = 30`, with a concrete secret. -/
theorem claim_C5_witness :
    (TOTP.new [1] MacDigest.SHA1 6 30).get_otp_with_custom_time_start 59 0
      = (HOTP.new [1] 6).get_otp ((59 - 0) / 30) :=
  (claim_C5_totp_refines_hotp [1] MacDigest.SHA1 6 30 59 0
    (by decide) (by decide) (by decide)).2.1

/-- C6: every produced code is below `10 ^ digits` (stated, as the claim
does, for digit counts in `[1, 10]`; the bound in fact needs no range
assumption), for both `HOTP::get_otp` and
`TOTP::get_otp_with_custom_time_start`. -/
theorem claim_C6_code_range :
    (∀ (h : HOTP) (c : Nat) (r : OTPResult), 1 ≤ h.digits → h.digits ≤ 10 →
        h.get_otp c = some r → r.code < 10 ^ h.digits) ∧
    (∀ (t : TOTP) (time ts : Nat) (r : OTPResult),
        1 ≤ t.digits → t.digits ≤ 10 →
        t.get_otp_with_custom_time_start time ts = some r →
        r.code < 10 ^ t.digits) := by
  have hderive : ∀ (secret : List Nat) (counter digits : Nat)
      (alg : MacDigest) (r : OTPResult),
      rfc4226Derive secret counter digits alg = some r →
      r.code < 10 ^ digits := by
    intro secret counter digits alg r hr
    simp only [rfc4226Derive] at hr
    rw [if_pos (offset_add_four_le _ (hash_generic_length_ge _ _ _))] at hr
    cases hr
    exact Nat.mod_lt _ (by positivity)
  constructor
  · intro h c r _ _ hr
    rw [hotp_get_otp_eq_derive] at hr
    exact hderive _ _ _ _ _ hr
  · intro t time ts r _ _ hr
    rcases Nat.eq_zero_or_pos t.period with hp | hp
    · simp [TOTP.get_otp_with_custom_time_start, hp] at hr
    · rw [totp_get_otp_eq_derive t time ts (Nat.pos_iff_ne_zero.mp hp)] at hr
      exact hderive _ _ _ _ _ hr

set_option maxRecDepth 40000 in
/-- C6 witness: the range bound at a concrete generator and counter. -/
theorem claim_C6_witness :
    (OTPResult.new 6 328482).code < 10 ^ (HOTP.new [] 6).digits :=
  claim_C6_code_range.1 (HOTP.new [] 6) 0 (OTPResult.new 6 328482)
    (by decide) (by decide) (by decide)

/-- C7: at period 30 and start time 0, regardless of secret, algorithm and
digit count, `time_until_refresh` returns 30 at time 0, 15 at time 15, and
a full period 30 at the exact boundary time 30, never 0. -/
theorem claim_C7_refresh_boundary (secret : List Nat) (alg : MacDigest)
    (digits : Nat) :
    (TOTP.new secret alg digits 30).time_until_refresh 0 = some 30 ∧
    (TOTP.new secret alg digits 30).time_until_refresh 15 = some 15 ∧
    (TOTP.new secret alg digits 30).time_until_refresh 30 = some 30 := by
  refine ⟨?_, ?_, ?_⟩ <;>
    simp [TOTP.time_until_refresh, TOTP.time_until_refresh_with_start,
      TOTP.new, sub64, mod64]

/-- C8: code generation is deterministic: generators whose stored
configurations coincide produce identical results at equal counters
respectively equal times — the result is a function of (secret, algorithm,
digits, period, counter/time) alone, with no hidden state. -/
theorem claim_C8_deterministic :
    (∀ (g k : HOTP) (c : Nat), g.secret = k.secret → g.digits = k.digits →
        g.get_otp c = k.get_otp c) ∧
    (∀ (t u : TOTP) (time ts : Nat), t.secret = u.secret →
        t.mac_digest = u.mac_digest → t.digits = u.digits →
        t.period = u.period →
        t.get_otp_with_custom_time_start time ts
          = u.get_otp_with_custom_time_start time ts) := by
  constructor
  · intro g k c hs hd
    cases g; cases k
    simp only at hs hd
    subst hs; subst hd
    rfl
  · intro t u time ts hs hm hd hp
    cases t; cases u
    simp only at hs hm hd hp
    subst hs; subst hm; subst hd; subst hp
    rfl

/-- C8 witness: two equally configured generators agree at a counter. -/
theorem claim_C8_witness :
    (HOTP.new [1] 6).get_otp 3 = (HOTP.new [1] 6).get_otp 3 :=
  claim_C8_deterministic.1 (HOTP.new [1] 6) (HOTP.new [1] 6) 3 rfl rfl

/-- C9: the dynamic-truncation read always stays in bounds: the low-nibble
offset satisfies `offset + 4 ≤ hash length` for every HMAC digest the
library produces, so the failed-slice branch of `HOTP::get_otp` is
unreachable, and likewise for `TOTP::get_otp_with_custom_time_start`
whenever the period is nonzero. -/
theorem claim_C9_truncation_in_bounds :
    (∀ (msg secret : List Nat) (d : MacDigest),
        ((hash_generic msg secret d).getD
            ((hash_generic msg secret d).length - 1) 0 &&& 0xf) + 4
          ≤ (hash_generic msg secret d).length) ∧
    (∀ (h : HOTP) (c : Nat), (h.get_otp c).isSome = true) ∧
    (∀ (t : TOTP) (time ts : Nat), t.period ≠ 0 →
        (t.get_otp_with_custom_time_start time ts).isSome = true) := by
  refine ⟨?_, ?_, ?_⟩
  · intro msg secret d
    exact offset_add_four_le _ (hash_generic_length_ge _ _ _)
  · intro h c
    rw [hotp_get_otp_eq_derive]
    exact derive_isSome _ _ _ _
  · intro t time ts hp
    rw [totp_get_otp_eq_derive t time ts hp]
    exact derive_isSome _ _ _ _

/-- C9 witness: the in-bounds read at a concrete SHA512 generator. -/
theorem claim_C9_witness :
    ((TOTP.new [1] MacDigest.SHA512 6 30).get_otp_with_custom_time_start
      59 0).isSome = true :=
  claim_C9_truncation_in_bounds.2.2 (TOTP.new [1] MacDigest.SHA512 6 30)
    59 0 (by decide)

/-- C10: the raw-bytes and UTF-8 constructors are total and validate
nothing: for every byte sequence, digit count and (for TOTP) period —
including empty secrets and zero values — construction succeeds and stores
the arguments unchanged, and the accessors return them verbatim. -/
theorem claim_C10_constructors_total :
    (∀ (s : List Nat) (d : Nat),
        (HOTP.new s d).secret = s ∧ (HOTP.new s d).get_digits = d) ∧
    (∀ (s : String) (d : Nat),
        (HOTP.new_from_utf8 s d).secret = utf8Bytes s ∧
        (HOTP.new_from_utf8 s d).get_digits = d) ∧
    (∀ (s : List Nat) (m : MacDigest) (d p : Nat),
        (TOTP.new s m d p).secret = s ∧
        (TOTP.new s m d p).get_digest = m ∧
        (TOTP.new s m d p).get_digits = d ∧
        (TOTP.new s m d p).get_period = p) ∧
    (∀ (s : String) (m : MacDigest) (d p : Nat),
        (TOTP.new_from_utf8 s m d p).secret = utf8Bytes s ∧
        (TOTP.new_from_utf8 s m d p).get_digest = m ∧
        (TOTP.new_from_utf8 s m d p).get_digits = d ∧
        (TOTP.new_from_utf8 s m d p).get_period = p) :=
  ⟨fun _ _ => ⟨rfl, rfl⟩,
   fun _ _ => ⟨rfl, rfl⟩,
   fun _ _ _ _ => ⟨rfl, rfl, rfl, rfl⟩,
   fun _ _ _ _ => ⟨rfl, rfl, rfl, rfl⟩⟩

end RsOtp
